import Mathlib

/-!
Verification of the doxypypy3 docstring annotation engine.

This development shallowly embeds the core of `doxypypy.py` (the
`AstWalker` docstring rewriter, the code/prose checker coroutine, the
batch writer) together with the regular-expression table of
`src/compile.py`, and proves properties of the embedding.

Lines of text are modelled as `String`; the Python string operations
used by the source (`strip`, `rstrip`, `replace`, `expandtabs`,
`startswith`, negative list indexing) are reimplemented faithfully
below. The regular expressions of the pattern table are hand-compiled
into executable matchers that follow the backtracking semantics of
Python `re` on the pattern in question.
-/

/-! ## Python string primitives -/

/-- Python whitespace for `str.strip` and friends: space, tab, newline,
carriage return, vertical tab, form feed. -/
def pyIsSpace (c : Char) : Bool :=
  c == ' ' || c == '\t' || c == '\n' || c == '\r' ||
  c == Char.ofNat 11 || c == Char.ofNat 12

/-- Python `\w` on ASCII input: letters, digits, underscore. -/
def pyIsWord (c : Char) : Bool :=
  c.isAlpha || c.isDigit || c == '_'

/-- Characters matched by `[\w\.]`. -/
def pyIsWordDot (c : Char) : Bool :=
  pyIsWord c || c == '.'

def pyLstripList (l : List Char) : List Char :=
  l.dropWhile pyIsSpace

def pyRstripList (l : List Char) : List Char :=
  (l.reverse.dropWhile pyIsSpace).reverse

def pyStripList (l : List Char) : List Char :=
  pyRstripList (pyLstripList l)

/-- Python `str.rstrip()`. -/
def pyRstrip (s : String) : String :=
  ⟨pyRstripList s.data⟩

/-- Python `str.strip()`. -/
def pyStrip (s : String) : String :=
  ⟨pyStripList s.data⟩

/-- Python `str.startswith`. -/
def pyStartswith (s pre : String) : Bool :=
  pre.data.isPrefixOf s.data

/-- Python `str.endswith`. -/
def pyEndswith (s suf : String) : Bool :=
  suf.data.isSuffixOf s.data

/-- Does `pat` occur as a contiguous sublist of `l`? -/
def listContainsSub (l pat : List Char) : Bool :=
  match l with
  | [] => pat.isEmpty
  | _ :: t => pat.isPrefixOf l || listContainsSub t pat

/-- Python `pat in s` substring test. -/
def pyContainsSub (s pat : String) : Bool :=
  listContainsSub s.data pat.data

/-- ASCII lowercase of a string, as Python `str.lower` on ASCII text. -/
def pyLower (s : String) : String :=
  ⟨s.data.map Char.toLower⟩

/-- One left-to-right pass of Python `str.replace`: replace each
non-overlapping occurrence of `pat`, continuing after the replacement.
Fuel-based so that the definition reduces in the kernel; the fuel is
instantiated with the length of the scanned list. -/
def replaceAllFuel (repl pat : List Char) : Nat → List Char → List Char
  | 0, l => l
  | _ + 1, [] => []
  | fuel + 1, c :: t =>
    if pat ≠ [] ∧ pat.isPrefixOf (c :: t) then
      repl ++ replaceAllFuel repl pat fuel ((c :: t).drop pat.length)
    else
      c :: replaceAllFuel repl pat fuel t

/-- Python `s.replace(pat, repl)` (replace all occurrences). -/
def pyReplace (s pat repl : String) : String :=
  ⟨replaceAllFuel repl.data pat.data s.data.length s.data⟩

/-- Python `str.expandtabs(n)`: each tab advances the column to the next
multiple of `n`; newlines and carriage returns reset the column. -/
def expandTabsAux (n : Nat) : Nat → List Char → List Char
  | _, [] => []
  | col, c :: t =>
    if c = '\t' then
      let k := if n = 0 then 0 else n - col % n
      List.replicate k ' ' ++ expandTabsAux n (col + k) t
    else if c = '\n' ∨ c = '\r' then c :: expandTabsAux n 0 t
    else c :: expandTabsAux n (col + 1) t

def pyExpandtabs (s : String) (n : Nat) : String :=
  ⟨expandTabsAux n 0 s.data⟩

/-- Python list read `l[i]` with negative-index wraparound; out of range
is an `IndexError`, modelled as `none`. -/
def pyGet (l : List String) (i : Int) : Option String :=
  if 0 ≤ i then
    l.get? i.toNat
  else if (-i).toNat ≤ l.length then
    l.get? (l.length - (-i).toNat)
  else
    none

/-- Python list write `l[i] = v` with negative-index wraparound. -/
def pySet (l : List String) (i : Int) (v : String) : Option (List String) :=
  if 0 ≤ i then
    if i.toNat < l.length then some (l.set i.toNat v) else none
  else if (-i).toNat ≤ l.length then
    some (l.set (l.length - (-i).toNat) v)
  else
    none

/-- Replace the last element of a list (caller guarantees nonemptiness). -/
def setLast (l : List String) (v : String) : List String :=
  l.dropLast ++ [v]


/-! ## Case-insensitive prefix matching

Python compiles most of the pattern table with `IGNORECASE`; on the
ASCII patterns involved this is ASCII case folding. -/

/-- Case-insensitive character comparison (ASCII folding). -/
def ciEqCh (p c : Char) : Bool :=
  c.toLower == p.toLower

/-- Case-insensitively split `pat` off the front of `l`, returning the
consumed characters as written together with the remainder. -/
def ciPrefixSplit : List Char → List Char → Option (List Char × List Char)
  | [], l => some ([], l)
  | _ :: _, [] => none
  | p :: ps, c :: cs =>
    if ciEqCh p c then
      match ciPrefixSplit ps cs with
      | some (w, r) => some (c :: w, r)
      | none => none
    else none

/-! ## The regular-expression table (`RE` in `src/compile.py`)

Each matcher hand-compiles one pattern, following Python `re`
leftmost/greedy backtracking semantics on that pattern. -/

/-- Pattern `_blanklineRE = ^\s*$`. -/
def blanklineMatch (s : String) : Bool :=
  s.data.all pyIsSpace

/-- Helper: a full keyword (colon included in `kw`) followed by only
trailing whitespace, case-insensitively. -/
def fullKw (kw : String) (r : List Char) : Bool :=
  match ciPrefixSplit kw.data r with
  | some (_, r1) => r1.all pyIsSpace
  | none => false

/-- Pattern `_returnsStartRE = ^\s*(?:Return|Yield)s:\s*$` (IGNORECASE). -/
def returnsStartMatch (s : String) : Bool :=
  let r := s.data.dropWhile pyIsSpace
  fullKw "returns:" r || fullKw "yields:" r

/-- Pattern `_raisesStartRE = ^\s*(Raises|Exceptions|See Also):\s*$`
(IGNORECASE). Returns whether `'see'` occurs in the lowered first
group, the only use the rewriter makes of the match. -/
def raisesStartMatch (s : String) : Option Bool :=
  let r := s.data.dropWhile pyIsSpace
  if fullKw "raises:" r then some false
  else if fullKw "exceptions:" r then some false
  else if fullKw "see also:" r then some true
  else none

/-- Helper for `\s*:\s*$`. -/
def colonEndWs (r : List Char) : Bool :=
  match r.dropWhile pyIsSpace with
  | ':' :: t => t.all pyIsSpace
  | _ => false

/-- Helper for the `rg(?:ument)?s?\s*:\s*$` tail of `_argsStartRE`,
applied after the `A`/`Kwa` alternative has been consumed. -/
def argTailMatch (r : List Char) : Bool :=
  match ciPrefixSplit "rg".data r with
  | none => false
  | some (_, r1) =>
    let r2 := match ciPrefixSplit "ument".data r1 with
      | some (_, t) => t
      | none => r1
    let r3 := match r2 with
      | c :: t => if ciEqCh 's' c then t else r2
      | [] => r2
    colonEndWs r3

/-- The `(?:A|Kwa)rg(?:ument)?s?\s*:\s*$` part of `_argsStartRE`. -/
def argAltMatch (r : List Char) : Bool :=
  (match ciPrefixSplit "a".data r with
   | some (_, r1) => argTailMatch r1
   | none => false) ||
  (match ciPrefixSplit "kwa".data r with
   | some (_, r1) => argTailMatch r1
   | none => false)

/-- Pattern `_argsStartRE = ^(\s*(?:(?:Keyword\s+)?(?:A|Kwa)rg(?:ument)?|Attribute)s?\s*:\s*)$`
(IGNORECASE). Anchored at both ends, so group 0 is the whole line. -/
def argsStartMatch (s : String) : Bool :=
  let r := s.data.dropWhile pyIsSpace
  (match ciPrefixSplit "keyword".data r with
   | some (_, r1) =>
     match r1 with
     | c :: t => pyIsSpace c && argAltMatch (t.dropWhile pyIsSpace)
     | [] => false
   | none => false) ||
  argAltMatch r ||
  (match ciPrefixSplit "attribute".data r with
   | some (_, r1) =>
     let r2 := match r1 with
       | c :: t => if ciEqCh 's' c then t else r1
       | [] => r1
     colonEndWs r2
   | none => false)

/-- Helper for `_argsRE`: match `(?:-|:)+\s+(?P<desc>.+)$` at `r`,
returning the description group. The `-`/`:` run is taken greedily;
`\s+` is greedy but backtracks one character when `.+` would otherwise
be empty, exactly as Python `re` does. -/
def argsColonSplit (r : List Char) : Option (List Char) :=
  let cs := r.takeWhile (fun c => c == '-' || c == ':')
  if cs.isEmpty then none
  else
    let r1 := r.drop cs.length
    let ws := r1.takeWhile pyIsSpace
    let r2 := r1.drop ws.length
    if !r2.isEmpty then
      if !ws.isEmpty then some r2 else none
    else if 2 ≤ ws.length then some (ws.drop (ws.length - 1))
    else none

/-- Helper for `_argsRE`: try type-group lengths `k, k-1, …, 0`
(the preference order induced by the greedy `(?P<type>\(?\S*\)?)?`),
then the second `\s*` and the separator tail. -/
def argsTryTypeK (r1 : List Char) : Nat → Option (List Char)
  | 0 => argsColonSplit (r1.dropWhile pyIsSpace)
  | k + 1 =>
    match argsColonSplit ((r1.drop (k + 1)).dropWhile pyIsSpace) with
    | some d => some d
    | none => argsTryTypeK r1 k

/-- Pattern `_argsRE = ^\s*(?P<name>\w+)\s*(?P<type>\(?\S*\)?)?\s*(?:-|:)+\s+(?P<desc>.+)$`.
Returns the `name` and `desc` groups, the only two the rewriter uses
(the `type` group is captured by the pattern but discarded). -/
def argsREMatch (s : String) : Option (String × String) :=
  let r0 := s.data.dropWhile pyIsSpace
  let nm := r0.takeWhile pyIsWord
  if nm.isEmpty then none
  else
    let r1 := (r0.drop nm.length).dropWhile pyIsSpace
    let tok := r1.takeWhile (fun c => !(pyIsSpace c))
    match argsTryTypeK r1 tok.length with
    | some d => some (⟨nm⟩, ⟨d⟩)
    | none => none

/-- The final `([\w\.]+)$` of `_listRE`. -/
def listFinal (r : List Char) : Bool :=
  let w := r.takeWhile pyIsWordDot
  !w.isEmpty && (r.drop w.length).isEmpty

/-- The `(&|and)?\s*([\w\.]+)$` tail of `_listRE`. -/
def listAfterReps (r : List Char) : Bool :=
  (if ['&'].isPrefixOf r then listFinal ((r.drop 1).dropWhile pyIsSpace) else false) ||
  (if ['a', 'n', 'd'].isPrefixOf r then listFinal ((r.drop 3).dropWhile pyIsSpace) else false) ||
  listFinal (r.dropWhile pyIsSpace)

/-- The greedy `(([\w\.]+),\s*)+` of `_listRE`: consume as many
word-comma groups as possible, returning the remainder. -/
def listRepsLoop : Nat → List Char → Option (List Char)
  | 0, _ => none
  | fuel + 1, r =>
    let w := r.takeWhile pyIsWordDot
    if w.isEmpty then none
    else
      match r.drop w.length with
      | ',' :: t =>
        let t2 := t.dropWhile pyIsSpace
        match listRepsLoop fuel t2 with
        | some rest => some rest
        | none => some t2
      | _ => none

/-- Pattern `_listRE = ^\s*(([\w\.]+),\s*)+(&|and)?\s*([\w\.]+)$`. Anchored at
both ends, so group 0 is the whole line. -/
def listMatch (s : String) : Bool :=
  let r := s.data.dropWhile pyIsSpace
  match listRepsLoop (r.length + 1) r with
  | some rest => listAfterReps rest
  | none => false

/-- Findall of `_listItemRE`: `([\w\.]+),?\s*` collects every maximal run
of word/dot characters. -/
def wordDotRuns : Nat → List Char → List (List Char)
  | 0, _ => []
  | _ + 1, [] => []
  | fuel + 1, c :: t =>
    if pyIsWordDot c then
      let w := (c :: t).takeWhile pyIsWordDot
      w :: wordDotRuns fuel ((c :: t).drop w.length)
    else wordDotRuns fuel t

def listItemFindall (s : String) : List String :=
  (wordDotRuns s.data.length s.data).map fun w => ⟨w⟩

/-- Method `AstWalker._stripOutAnds`: remove `' and '` and `' & '`. -/
def stripOutAnds (s : String) : String :=
  pyReplace (pyReplace s " and " " ") " & " " "

/-- Pattern `_singleListItemRE = ^\s*([\w\.]+)\s*$`. Anchored at both ends, so
group 0 is the whole line. -/
def singleListItemMatch (s : String) : Bool :=
  let r := s.data.dropWhile pyIsSpace
  let w := r.takeWhile pyIsWordDot
  !w.isEmpty && (r.drop w.length).all pyIsSpace

/-- Pattern `_examplesStartRE = ^\s*(?:Example|Doctest)s?:\s*$` (IGNORECASE). -/
def exKw (kw : String) (r : List Char) : Bool :=
  match ciPrefixSplit kw.data r with
  | some (_, r1) =>
    let r2 := match r1 with
      | c :: t => if ciEqCh 's' c then t else r1
      | [] => r1
    match r2 with
    | ':' :: t => t.all pyIsSpace
    | _ => false
  | none => false

def examplesStartMatch (s : String) : Bool :=
  let r := s.data.dropWhile pyIsSpace
  exKw "example" r || exKw "doctest" r

/-- One repetition `[A-Z]\w* ?` of `_sectionStartRE`. -/
def isSectionUnit (l : List Char) : Bool :=
  match l with
  | [] => false
  | c :: t =>
    ('A' ≤ c && c ≤ 'Z') &&
    (let w := t.takeWhile pyIsWord
     (t.drop w.length).isEmpty || t.drop w.length == [' '])

/-- Subpattern of one or two heading words, matched exactly against `core`. -/
def sectionSplits (core : List Char) : Bool :=
  isSectionUnit core ||
  (List.range core.length).any fun k =>
    isSectionUnit (core.take (k + 1)) && isSectionUnit (core.drop (k + 1))

/-- Pattern `_sectionStartRE = ^\s*(([A-Z]\w* ?){1,2}):\s*$`. Returns group 1
(the heading text). Group 0 is the whole line. -/
def sectionStartMatch (s : String) : Option String :=
  let r := s.data.dropWhile pyIsSpace
  let core0 := pyRstripList r
  if core0.getLast? = some ':' then
    let c := core0.dropLast
    if sectionSplits c then some ⟨c⟩ else none
  else none

/-- The `\S+Error|Traceback.*` alternative of `_errorLineRE`
(IGNORECASE), applied after leading whitespace. -/
def errorAltA (r : List Char) : Bool :=
  (ciPrefixSplit "traceback".data r).isSome ||
  (List.range r.length).any fun i =>
    1 ≤ i && (r.take i).all (fun c => !(pyIsSpace c)) &&
    (ciPrefixSplit "error".data (r.drop i)).isSome

/-- The `@?[\w.]+` alternative of `_errorLineRE`, with the trailing
`\s*$`. -/
def errorAltB (r : List Char) : Bool :=
  let r1 := if ['@'].isPrefixOf r then r.drop 1 else r
  let w := r1.takeWhile pyIsWordDot
  !w.isEmpty && (r1.drop w.length).all pyIsSpace

/-- Pattern `_errorLineRE = ^\s*((?:\S+Error|Traceback.*):?\s*(.*)|@?[\w.]+)\s*$`
(IGNORECASE). Only whether it matches is used. -/
def errorLineMatch (s : String) : Bool :=
  let r := s.data.dropWhile pyIsSpace
  errorAltA r || errorAltB r

/-- The parenthesized bases of `_interfaceRE`:
`\s*(?:zope\.)?(?:interface\.)?Interface\s*\)\s*:` (IGNORECASE). -/
def interfaceAfterParen (r : List Char) : Bool :=
  let r1 := r.dropWhile pyIsSpace
  let r2 := match ciPrefixSplit "zope.".data r1 with
    | some (_, t) => t
    | none => r1
  let r3 := match ciPrefixSplit "interface.".data r2 with
    | some (_, t) => t
    | none => r2
  match ciPrefixSplit "interface".data r3 with
  | some (_, r4) =>
    (match r4.dropWhile pyIsSpace with
     | ')' :: r5 =>
       (match r5.dropWhile pyIsSpace with
        | ':' :: _ => true
        | _ => false)
     | _ => false)
  | none => false

/-- Backtracking over the greedy `(\S+)` class-name group of
`_interfaceRE`: longest candidate first, requiring `\s*\(` and the
interface bases after it. -/
def interfaceName (r2 : List Char) : Nat → Option String
  | 0 => none
  | k + 1 =>
    let rest := (r2.drop (k + 1)).dropWhile pyIsSpace
    match rest with
    | '(' :: r3 =>
      if interfaceAfterParen r3 then some ⟨r2.take (k + 1)⟩
      else interfaceName r2 k
    | _ => interfaceName r2 k

/-- Pattern `_interfaceRE = ^\s*class\s+(\S+)\s*\(\s*(?:zope\.)?(?:interface\.)?Interface\s*\)\s*:`
(IGNORECASE). Returns group 1, the type name. -/
def interfaceMatch (s : String) : Option String :=
  let r := s.data.dropWhile pyIsSpace
  match ciPrefixSplit "class".data r with
  | none => none
  | some (_, r1) =>
    match r1 with
    | c :: t =>
      if pyIsSpace c then
        let r2 := t.dropWhile pyIsSpace
        let tok := r2.takeWhile fun c2 => !(pyIsSpace c2)
        interfaceName r2 tok.length
      else none
    | [] => none

/-- Indentation measured as the source does:
`len(line.expandtabs(t)) - len(line.expandtabs(t).lstrip())`. -/
def indentOf (tablength : Nat) (line : String) : Nat :=
  let e := (pyExpandtabs line tablength).data
  (e.takeWhile pyIsSpace).length


/-! ## `AstWalker._endCodeIfNeeded` -/

/-- Method `_endCodeIfNeeded(line, inCodeBlock)`: prepend an end-code marker
when a code block is open. -/
def endCodeIfNeeded (line : String) (inCodeBlock : Bool) : String × Bool :=
  if inCodeBlock then ("# @endcode" ++ "\n" ++ pyRstrip line, false)
  else (line, inCodeBlock)

/-! ## `AstWalker._checkIfCode` (the code/prose checker coroutine)

`compile_command` is an external collaborator (speculative incremental
compilation); it is modelled as an oracle `String → CompOutcome`.
`synErr` stands for the `SyntaxError`/`RuntimeError` exceptions the
source treats as a definitive not-code result, `othErr` for any other
exception, `done` for a completed code object, and `more` for the
`None` result of an incomplete-but-well-formed prefix. -/

inductive CompOutcome where
  | done
  | more
  | synErr
  | othErr
deriving DecidableEq, Repr

/-- Which `yield` inside the classification loop the coroutine is
suspended at: `ambig` covers the blank/ellipsis/error-line yield and
the other-exception yield (their resume behaviour is identical);
`incomplete` is the yield after a non-erroring compile that did not
classify. -/
inductive SuspKind where
  | ambig
  | incomplete
deriving DecidableEq, Repr

structure Susp where
  testLine : String
  testLineNum : Nat
  kind : SuspKind
deriving DecidableEq, Repr

/-- Checker coroutine state between `send`s: its own running
`inCodeBlock` flag plus the suspension point, `none` meaning it waits
at the top of the outer loop for a fresh line. -/
structure CheckerSt where
  inCodeBlock : Bool
  susp : Option Susp
deriving DecidableEq, Repr

/-- Result of running one iteration of the inner `while lineOfCode is
None` loop: either a classification (with the `currentLineNum` value
computed at the end of the iteration) or a suspension. -/
inductive IterResult where
  | classified (lineOfCode : Option Bool) (cur : Int)
  | suspend (s : Susp)
deriving DecidableEq, Repr

/-- One iteration of the classification loop (lines 85–118 of
`doxypypy.py`). `cur` is the `currentLineNum` value left by the
previous iteration (`0` on a fresh activation); `lineNum` is the most
recently received line number. `none` models an `IndexError` from the
`lines[currentLineNum]` read. -/
def checkIterate (comp : String → CompOutcome) (lines : List String)
    (testLine : String) (testLineNum : Nat) (cur : Int) (lineNum : Int) :
    Option IterResult :=
  if testLine = "" ∨ testLine = "..." ∨ errorLineMatch testLine then
    some (.suspend ⟨testLine, testLineNum, .ambig⟩)
  else if pyStartswith testLine ">>> " then
    some (.classified (some true) (lineNum - testLineNum))
  else
    match comp testLine with
    | .synErr => some (.classified (some false) (lineNum - testLineNum))
    | .othErr => some (.suspend ⟨testLine, testLineNum, .ambig⟩)
    | .more => some (.suspend ⟨testLine, testLineNum, .incomplete⟩)
    | .done =>
      match pyGet lines cur with
      | none => none
      | some v =>
        if pyStartswith (pyStrip v) "#" then
          some (.classified (some true) (lineNum - testLineNum))
        else
          some (.suspend ⟨testLine, testLineNum, .incomplete⟩)

/-- The marker-insertion step at the bottom of the outer loop (lines
119–132 of `doxypypy.py`). A truthy `lineOfCode` (`some true`) while
outside a code block opens one; only the definitive `some false` while
inside one closes it — `none` is ambiguous and does neither. -/
def insertMarkers (inCodeBlock : Bool) (lineOfCode : Option Bool)
    (cur : Int) (lines : List String) : Option (Bool × List String) :=
  if !inCodeBlock ∧ lineOfCode = some true then
    match pyGet lines cur with
    | none => none
    | some v =>
      match pySet lines cur (v ++ "\n" ++ "# @code" ++ "\n") with
      | none => none
      | some lines2 => some (true, lines2)
  else if inCodeBlock ∧ lineOfCode = some false then
    match pyGet lines cur with
    | none => none
    | some v =>
      match pySet lines cur (v ++ "\n" ++ "# @endcode" ++ "\n") with
      | none => none
      | some lines2 => some (false, lines2)
  else
    some (inCodeBlock, lines)

/-- Finish a classification: run the marker step and return to the top
of the outer loop. -/
def checkFinish (st : CheckerSt) (lineOfCode : Option Bool) (cur : Int)
    (lines : List String) : Option (CheckerSt × List String) :=
  match insertMarkers st.inCodeBlock lineOfCode cur lines with
  | none => none
  | some (b, lines2) => some (⟨b, none⟩, lines2)

/-- Interpret an `IterResult` against the checker state. -/
def checkStepResult (st : CheckerSt) (lines : List String) :
    Option IterResult → Option (CheckerSt × List String)
  | none => none
  | some (.classified loc cur) => checkFinish st loc cur lines
  | some (.suspend s) => some ({ st with susp := some s }, lines)

/-- One `checker.send((line, lines, lineNum))`: resume the coroutine with
one more line, returning its new state and the (possibly rewritten)
pending-lines list. -/
def checkSend (comp : String → CompOutcome) (st : CheckerSt)
    (line : String) (lines : List String) (lineNum : Int) :
    Option (CheckerSt × List String) :=
  match st.susp with
  | none =>
    checkStepResult st lines (checkIterate comp lines (pyStrip line) 1 0 lineNum)
  | some ⟨_, tln, .ambig⟩ =>
    checkStepResult st lines
      (checkIterate comp lines (pyStrip line) tln (lineNum - tln) lineNum)
  | some ⟨tl, tln, .incomplete⟩ =>
    let l2 := pyStrip line
    if pyStartswith l2 ">>> " then
      checkFinish st (some true) (lineNum - tln) lines
    else
      let tl2 := pyStrip (tl ++ "\n" ++ l2)
      checkStepResult st lines
        (checkIterate comp lines tl2 (tln + 1) (lineNum - (tln + 1)) lineNum)


/-! ## `AstWalker.__alterDocstring` (the docstring rewriter) -/

structure Options where
  autobrief : Bool
  autocode : Bool
  tablength : Nat
deriving DecidableEq, Repr

/-- A rewrite batch as handed to `__writeDocstring`:
`(firstLineNum, lastLineNum, lines)`. -/
structure Batch where
  firstLine : Int
  lastLine : Int
  lines : List String
deriving DecidableEq, Repr

/-- The per-docstring state of the `__alterDocstring` coroutine. -/
structure AltSt where
  lines : List String
  timeToSend : Bool
  inCodeBlock : Bool
  inSection : Bool
  pfx : String
  firstLineNum : Int
  sectionHeadingIndent : Nat
  codeChecker : CheckerSt
  proseChecker : CheckerSt
deriving DecidableEq, Repr

/-- One pattern of `_singleLineREs`: `^(\s*LABEL s?:\s*)(.*)$`
(IGNORECASE), returning group 1 as written. -/
def slMatchCore (label : String) (optS : Bool) (line : String) : Option String :=
  let l := line.data
  let ws := l.takeWhile pyIsSpace
  let r := l.dropWhile pyIsSpace
  match ciPrefixSplit label.data r with
  | none => none
  | some (w, r1) =>
    let sp := if optS then
        match r1 with
        | c :: t => if ciEqCh 's' c then ([c], t) else ([], r1)
        | [] => ([], r1)
      else ([], r1)
    match sp.2 with
    | ':' :: r3 => some ⟨ws ++ w ++ sp.1 ++ [':'] ++ r3.takeWhile pyIsSpace⟩
    | _ => none

/-- Table `_singleLineREs` in its Python dict order: doxygen tag, label,
whether the label takes an optional plural `s`. -/
def slPatterns : List (String × String × Bool) :=
  [(" @author: ", "author", true),
   (" @copyright ", "copyright", false),
   (" @date ", "date", false),
   (" @file ", "file", false),
   (" @version: ", "version", false),
   (" @note ", "note", false),
   (" @warning ", "warning", false)]

/-- The `for doxyTag, tagRE in RE._singleLineREs.items()` loop of
`__alterDocstring` (lines 161–171): each match flushes the pending
batch and rewrites the matched label in place. -/
def slLoop (lineNum : Nat) :
    List (String × String × Bool) → String → AltSt → List Batch →
    Option (String × AltSt × List Batch)
  | [], line, st, out => some (line, st, out)
  | (tag, label, optS) :: ps, line, st, out =>
    match slMatchCore label optS line with
    | none => slLoop lineNum ps line st out
    | some g1 =>
      match st.lines.getLast? with
      | none => none
      | some v =>
        let p := endCodeIfNeeded v st.inCodeBlock
        let sent := setLast st.lines p.1
        slLoop lineNum ps (pyReplace line g1 tag)
          { st with
            lines := [], firstLineNum := (lineNum : Int),
            inCodeBlock := p.2, timeToSend := true }
          (out ++ [⟨st.firstLineNum, (lineNum : Int) - 1, sent⟩])

/-- The `if inSection:` block (lines 173–186). -/
def inSectionStep (opts : Options) (line : String) (st : AltSt) : Option AltSt :=
  if st.inSection then
    if blanklineMatch line then some st
    else
      let ind := indentOf opts.tablength line
      if ind ≤ st.sectionHeadingIndent then some { st with inSection := false }
      else
        match st.lines.getLast? with
        | none => none
        | some v =>
          if v = "#" then some { st with lines := setLast st.lines "# @par" }
          else some st
  else some st

/-- The `if timeToSend:` flush at the bottom of the loop (lines
307–313): close an open code block on the last pending line, emit the
batch, reset. -/
def flushIfNeeded (st : AltSt) (lineNum : Nat) (out : List Batch) :
    Option (AltSt × List Batch) :=
  if st.timeToSend then
    match st.lines.getLast? with
    | none => none
    | some v =>
      let p := endCodeIfNeeded v st.inCodeBlock
      let sent := setLast st.lines p.1
      some ({ st with
              lines := [], firstLineNum := -1, timeToSend := false,
              inCodeBlock := p.2 },
            out ++ [⟨st.firstLineNum, (lineNum : Int), sent⟩])
  else some (st, out)

/-- The common tail of an iteration (lines 290–313): append the
trailing tag on the block's last line, prefix the comment marker
(doubled on line 0), collapse a blank-before-newline artifact, append
to pending, and flush if a single-line tag asked for it. -/
def finishLine (tail : String) (docLen : Nat) (st : AltSt)
    (lineNum : Nat) (line : String) (out : List Batch) :
    Option (AltSt × List Batch) :=
  let line1 := if tail ≠ "" ∧ lineNum = docLen - 1 then
      pyRstrip line ++ "\n" ++ "# " ++ tail
    else line
  let line2 := "#" ++ pyRstrip line1
  let line3 := if lineNum = 0 then "#" ++ line2 else line2
  flushIfNeeded { st with lines := st.lines ++ [pyReplace line3 " \n" "\n"] }
    lineNum out

/-- The arbitrary-section branch (lines 250–268), ending in `continue`. -/
def sectionBranch (opts : Options) (st : AltSt) (lc : String) (g1 : String)
    (out : List Batch) : Option (AltSt × List Batch) :=
  let st2 := { st with
               pfx := "", inSection := true,
               sectionHeadingIndent := indentOf opts.tablength lc }
  let line2 := pyReplace lc lc (" @par " ++ g1)
  match st2.lines.getLast? with
  | none => none
  | some v =>
    let lines2 := if v = "# @par" then setLast st2.lines "#" else st2.lines
    match lines2.getLast? with
    | none => none
    | some v2 =>
      let p := endCodeIfNeeded v2 st2.inCodeBlock
      some ({ st2 with
              inCodeBlock := p.2,
              lines := setLast lines2 p.1 ++ ["#" ++ line2] }, out)

/-- The section heading check and the `elif prefix:` fallback (lines
250–288). -/
def chainSection (opts : Options) (tail : String)
    (comp : String → CompOutcome) (docLen : Nat) (st : AltSt)
    (lineNum : Nat) (lc : String) (out : List Batch) :
    Option (AltSt × List Batch) :=
  match sectionStartMatch lc with
  | some g1 => sectionBranch opts st lc g1 out
  | none =>
    if st.pfx ≠ "" then
      if singleListItemMatch lc ∧ ¬ st.inCodeBlock then
        finishLine tail docLen st lineNum (" " ++ st.pfx ++ "\t" ++ lc) out
      else if opts.autocode ∧ st.inCodeBlock then
        match checkSend comp st.proseChecker lc st.lines
            ((lineNum : Int) - st.firstLineNum) with
        | none => none
        | some (chk, lines2) =>
          finishLine tail docLen
            { st with proseChecker := chk, lines := lines2 } lineNum lc out
      else if opts.autocode then
        match checkSend comp st.codeChecker lc st.lines
            ((lineNum : Int) - st.firstLineNum) with
        | none => none
        | some (chk, lines2) =>
          finishLine tail docLen
            { st with codeChecker := chk, lines := lines2 } lineNum lc out
      else finishLine tail docLen st lineNum lc out
    else finishLine tail docLen st lineNum lc out

/-- The examples check (lines 242–248); on failure of its guards the
source falls through to the section check. -/
def chainExamples (opts : Options) (tail : String)
    (comp : String → CompOutcome) (docLen : Nat) (st : AltSt)
    (lineNum : Nat) (lc : String) (out : List Batch) :
    Option (AltSt × List Batch) :=
  if examplesStartMatch lc then
    match st.lines.getLast? with
    | none => none
    | some v =>
      if pyStrip v = "#" ∧ opts.autocode then
        finishLine tail docLen { st with inCodeBlock := true } lineNum
          (pyReplace lc lc (" @b Examples" ++ "\n" ++ "# @code")) out
      else chainSection opts tail comp docLen st lineNum lc out
  else chainSection opts tail comp docLen st lineNum lc out

/-- The list check (lines 232–240). -/
def chainList (opts : Options) (tail : String)
    (comp : String → CompOutcome) (docLen : Nat) (st : AltSt)
    (lineNum : Nat) (lc : String) (out : List Batch) :
    Option (AltSt × List Batch) :=
  if listMatch lc ∧ ¬ st.inCodeBlock then
    let items := listItemFindall (stripOutAnds lc)
    let joined := String.join (items.map fun it => "# " ++ st.pfx ++ "\t" ++ it ++ "\n")
    finishLine tail docLen st lineNum ⟨joined.data.drop 1⟩ out
  else chainExamples opts tail comp docLen st lineNum lc out

/-- The raises/see-also check (lines 218–230), ending in `continue` on
a match. -/
def chainRaises (opts : Options) (tail : String)
    (comp : String → CompOutcome) (docLen : Nat) (st : AltSt)
    (lineNum : Nat) (lc : String) (out : List Batch) :
    Option (AltSt × List Batch) :=
  match raisesStartMatch lc with
  | some seeFlag =>
    let newLine := pyRstrip (pyReplace lc lc "")
    let p2 := if seeFlag then "@sa\t" else "@exception\t"
    match st.lines.getLast? with
    | none => none
    | some v =>
      let p := endCodeIfNeeded v st.inCodeBlock
      some ({ st with
              pfx := p2, inCodeBlock := p.2,
              lines := setLast st.lines p.1 ++ ["#" ++ newLine] }, out)
  | none => chainList opts tail comp docLen st lineNum lc out

/-- The item/description check (lines 207–216). -/
def chainArgsRE (opts : Options) (tail : String)
    (comp : String → CompOutcome) (docLen : Nat) (st : AltSt)
    (lineNum : Nat) (lc : String) (out : List Batch) :
    Option (AltSt × List Batch) :=
  match argsREMatch lc with
  | some (nm, d) =>
    if ¬ st.inCodeBlock then
      let line2 := if pyContainsSub st.pfx "property" then
          "# " ++ st.pfx ++ "\t" ++ nm ++ "\n" ++ "# " ++ d
        else " " ++ st.pfx ++ "\t" ++ nm ++ "\t" ++ d
      finishLine tail docLen st lineNum line2 out
    else chainRaises opts tail comp docLen st lineNum lc out
  | none => chainRaises opts tail comp docLen st lineNum lc out

/-- The returns/arguments checks and the rest of the autobrief
classification chain (lines 188–288). -/
def autobriefChain (opts : Options) (tail : String)
    (comp : String → CompOutcome) (docLen : Nat) (st : AltSt)
    (lineNum : Nat) (lc : String) (out : List Batch) :
    Option (AltSt × List Batch) :=
  if returnsStartMatch lc then
    finishLine tail docLen { st with pfx := "@return\t" } lineNum
      (pyRstrip (pyReplace lc lc " @return\t")) out
  else if argsStartMatch lc then
    let newLine := pyRstrip (pyReplace lc lc "")
    let p2 := if pyContainsSub (pyLower lc) "attr" then "@property\t" else "@param\t"
    match st.lines.getLast? with
    | none => none
    | some v =>
      let p := endCodeIfNeeded v st.inCodeBlock
      some ({ st with
              pfx := p2, inCodeBlock := p.2,
              lines := setLast st.lines p.1 ++ ["#" ++ newLine] }, out)
  else chainArgsRE opts tail comp docLen st lineNum lc out

/-- One `send` into `__alterDocstring`: process `(lineNum, line?)`
where `line? = none` is the end-of-block sentinel. -/
def altStep (opts : Options) (tail : String) (comp : String → CompOutcome)
    (docLen : Nat) (st : AltSt) (lineNum : Nat) (line? : Option String) :
    Option (AltSt × List Batch) :=
  let st1 := if st.firstLineNum < 0 then { st with firstLineNum := (lineNum : Int) }
    else st
  match line? with
  | none => flushIfNeeded { st1 with timeToSend := true } lineNum []
  | some line0 =>
    if opts.autobrief then
      match slLoop lineNum slPatterns line0 st1 [] with
      | none => none
      | some (lc, st2, out) =>
        match inSectionStep opts lc st2 with
        | none => none
        | some st3 => autobriefChain opts tail comp docLen st3 lineNum lc out
    else finishLine tail docLen st1 lineNum line0 []

/-- Feed a list of `(lineNum, line?)` items through `__alterDocstring`,
collecting the batches sent to the writer. -/
def runAlter (opts : Options) (tail : String) (comp : String → CompOutcome)
    (docLen : Nat) :
    List (Nat × Option String) → AltSt → List Batch → Option (AltSt × List Batch)
  | [], st, out => some (st, out)
  | (n, l?) :: rest, st, out =>
    match altStep opts tail comp docLen st n l? with
    | none => none
    | some (st2, emitted) => runAlter opts tail comp docLen rest st2 (out ++ emitted)

/-- The initial coroutine state (lines 144–152): `codeChecker` starts
outside a code block, `proseChecker` inside one. -/
def initAltSt : AltSt :=
  ⟨[], false, false, false, "", -1, 0, ⟨false, none⟩, ⟨true, none⟩⟩

/-- The drive loop of `_processDocstring` (lines 378–380): enumerate
the docstring lines, then send the sentinel. -/
def docItems (docLines : List String) : List (Nat × Option String) :=
  (docLines.enum.map fun p => (p.1, some p.2)) ++ [(docLines.length - 1, none)]

/-- Run the whole rewriter over a documentation block. -/
def alterDocstring (opts : Options) (tail : String)
    (comp : String → CompOutcome) (docLines : List String) :
    Option (AltSt × List Batch) :=
  runAlter opts tail comp docLines.length (docItems docLines) initAltSt []

/-! ## `AstWalker.__writeDocstring` (the block writer) -/

/-- Method `__writeDocstring`: pad the batch to the span length with empty
strings (`while len(lines) < newDocstringLen: lines.append('')`), then
replace the slice `[firstLineNum, lastLineNum + 1)`. The span length is
computed in `Int` as Python does; Python list-slice assignment with
in-range bounds is `take`/`drop` splicing. -/
def writeDocstring (docLines : List String) (firstLineNum lastLineNum : Nat)
    (lines : List String) : List String :=
  let newDocstringLen : Int := (lastLineNum : Int) - (firstLineNum : Int) + 1
  let padded := lines ++ List.replicate (newDocstringLen - (lines.length : Int)).toNat ""
  docLines.take firstLineNum ++ padded ++ docLines.drop (lastLineNum + 1)

/-- The padded batch list produced by the writer's while loop, named so
that the padding can be spoken about separately. -/
def paddedLines (firstLineNum lastLineNum : Nat) (lines : List String) :
    List String :=
  lines ++ List.replicate
    (((lastLineNum : Int) - (firstLineNum : Int) + 1 - (lines.length : Int)).toNat) ""

/-! ## `AstWalker._checkMemberName` / `_processMembers` -/

/-- Method `_checkMemberName`: leading-underscore visibility convention. -/
def checkMemberName (name : String) : Option String :=
  if !(pyEndswith name "__") then
    if pyStartswith name "__" then some "private"
    else if pyStartswith name "_" then some "protected"
    else none
  else none

/-- Method `_processMembers`: append a visibility directive to the context tag
when the name is restricted. -/
def processMembers (name contextTag : String) : String :=
  match checkMemberName name with
  | some r => contextTag ++ "\n" ++ "# @" ++ r
  | none => contextTag

/-! ## `visit_ClassDef` (interface detection) and the final splice -/

/-- The interface/class decision of `visit_ClassDef` (lines 190–212 of
`ast_visit.py`): the kind pushed onto the containing-nodes stack and
the context tag built from the namespace tail. -/
def classDefInfo (classLine : String) (tail : String) : String × String :=
  match interfaceMatch classLine with
  | some g1 => ("interface", tail ++ "\n" ++ "# @interface " ++ g1)
  | none => ("class", tail)

/-- The final splice of `_processDocstring` (lines 454–460 of
`doxypypy.py`): classes and functions get the docstring before the
declaration; modules get the declaration before the docstring. -/
def processDocstringSplice (isModule : Bool) (lines : List String)
    (startLineNum endLineNum : Nat) (docLines defLines : List String) :
    List String :=
  if isModule then
    lines.take startLineNum ++ (defLines ++ docLines) ++ lines.drop endLineNum
  else
    lines.take startLineNum ++ (docLines ++ defLines) ++ lines.drop endLineNum

/-! ## Code-block markers in a rewritten block

Batch elements may contain embedded newlines; the physical lines of a
rewritten block are the elements split at the line separator. -/

/-- Physical lines of a batch: split every element on the separator. -/
def physicalLines (lines : List String) : List String :=
  (lines.map fun s => (s.data.splitOn '\n').map fun l => (⟨l⟩ : String)).flatten

/-- The code-block marker sequence of a batch, in order: `true` for an
emitted `# @code` line, `false` for an emitted `# @endcode` line. -/
def markersOf (lines : List String) : List Bool :=
  (physicalLines lines).filterMap fun pl =>
    if pl = "# @code" then some true
    else if pl = "# @endcode" then some false
    else none

/-- Every open marker is followed, strictly later, by a close marker. -/
def codesClosed : List Bool → Bool
  | [] => true
  | true :: t => t.contains false && codesClosed t
  | false :: t => codesClosed t

/-- No open marker occurs while a block is already open (markers are
never nested): scanning with an open/closed flag, an open marker is
only legal with the flag down. -/
def noNestedFrom (openFlag : Bool) : List Bool → Bool
  | [] => true
  | true :: t => !openFlag && noNestedFrom true t
  | false :: t => noNestedFrom false t

/-- The marker sequence of a whole rewriter run. -/
def runMarkers (opts : Options) (tail : String) (comp : String → CompOutcome)
    (docLines : List String) : Option (List Bool) :=
  (alterDocstring opts tail comp docLines).map fun r =>
    (r.2.map fun b => markersOf b.lines).flatten


/-- A documentation line free of special markers: it matches none of
the patterns the autobrief chain recognizes, and it is a single
physical line. -/
def plainLine (l : String) : Prop :=
  (∀ p ∈ slPatterns, slMatchCore p.2.1 p.2.2 l = none) ∧
  returnsStartMatch l = false ∧
  argsStartMatch l = false ∧
  argsREMatch l = none ∧
  raisesStartMatch l = none ∧
  listMatch l = false ∧
  examplesStartMatch l = false ∧
  sectionStartMatch l = none ∧
  '\n' ∉ l.data

instance (l : String) : Decidable (plainLine l) := by
  unfold plainLine
  infer_instance

/-! ## Helper lemmas about the rewriter -/

lemma setLast_getLast {l : List String} {v : String} (h : l.getLast? = some v) :
    setLast l v = l := by
  have h2 : l ≠ [] := by rintro rfl; simp at h
  rw [List.getLast?_eq_getLast l h2] at h
  rw [setLast, ← Option.some.inj h, List.dropLast_append_getLast]

lemma getLast?_exists {l : List String} (h : l ≠ []) : ∃ v, l.getLast? = some v := by
  cases hx : l.getLast? with
  | none => exact absurd (List.getLast?_eq_none_iff.mp hx) h
  | some v => exact ⟨v, rfl⟩

lemma data_hash_append (t : String) : ("#" ++ t).data = '#' :: t.data := by
  rw [String.data_append]; rfl

lemma replaceAllFuel_cons_ne (fuel : Nat) (c : Char) (l : List Char)
    (h : (' ' == c) = false) :
    replaceAllFuel ['\n'] [' ', '\n'] (fuel + 1) (c :: l) =
      c :: replaceAllFuel ['\n'] [' ', '\n'] fuel l := by
  rw [replaceAllFuel]
  simp [List.isPrefixOf, h]

/-- The comment-prefixed pending line always starts with the comment
marker, whatever the blank-collapsing replacement does to its tail. -/
lemma startswith_hash (t : String) :
    pyStartswith (pyReplace ("#" ++ t) " \n" "\n") "#" = true := by
  have hp : (" \n" : String).data = [' ', '\n'] := rfl
  have hr : ("\n" : String).data = ['\n'] := rfl
  rw [pyStartswith, pyReplace, hp, hr, data_hash_append, List.length_cons,
    replaceAllFuel_cons_ne _ _ _ (by decide)]
  simp [List.isPrefixOf]

lemma replaceAllFuel_noop (fuel : Nat) (l : List Char) (h : '\n' ∉ l) :
    replaceAllFuel ['\n'] [' ', '\n'] fuel l = l := by
  induction fuel generalizing l with
  | zero => rfl
  | succ n ih =>
    cases l with
    | nil => rfl
    | cons c t =>
      have hpre : ([' ', '\n'].isPrefixOf (c :: t)) = false := by
        cases t with
        | nil => simp [List.isPrefixOf]
        | cons c2 t2 =>
          have hc2 : ('\n' == c2) = false := by
            have : c2 ≠ '\n' := fun he => h (by simp [he])
            simp [beq_iff_eq]
            exact fun he => this he.symm
          simp [List.isPrefixOf, hc2]
      rw [replaceAllFuel]
      simp only [hpre, ne_eq, Bool.and_eq_true, and_false, if_neg,
        not_false_eq_true, List.cons.injEq, true_and]
      have ht : '\n' ∉ t := fun hm => h (by simp [hm])
      simp [ih t ht]

lemma pyReplace_noop (s : String) (h : '\n' ∉ s.data) :
    pyReplace s " \n" "\n" = s := by
  have hp : (" \n" : String).data = [' ', '\n'] := rfl
  have hr : ("\n" : String).data = ['\n'] := rfl
  apply String.ext
  rw [pyReplace, hp, hr]
  exact replaceAllFuel_noop _ _ h

lemma mem_rstrip {c : Char} {l : List Char} (h : c ∈ pyRstripList l) : c ∈ l := by
  rw [pyRstripList] at h
  have hsub : (l.reverse.dropWhile pyIsSpace).Sublist l.reverse :=
    List.dropWhile_sublist _
  have := hsub.mem (List.mem_reverse.mp h)
  exact List.mem_reverse.mp this

lemma slLoop_nomatch (lineNum : Nat) (ps : List (String × String × Bool))
    (line : String) (st : AltSt) (out : List Batch)
    (h : ∀ p ∈ ps, slMatchCore p.2.1 p.2.2 line = none) :
    slLoop lineNum ps line st out = some (line, st, out) := by
  induction ps with
  | nil => rfl
  | cons p ps ih =>
    obtain ⟨tag, label, optS⟩ := p
    have hp := h (tag, label, optS) (by simp)
    simp only [slLoop, hp]
    exact ih fun q hq => h q (by simp [hq])

lemma slLoop_err (lineNum : Nat) (ps : List (String × String × Bool))
    (line : String) (st : AltSt) (out : List Batch) (hl : st.lines = [])
    (h : ∃ p ∈ ps, (slMatchCore p.2.1 p.2.2 line).isSome) :
    slLoop lineNum ps line st out = none := by
  induction ps generalizing line with
  | nil => simp at h
  | cons p ps ih =>
    obtain ⟨tag, label, optS⟩ := p
    cases hm : slMatchCore label optS line with
    | some g => simp [slLoop, hm, hl]
    | none =>
      simp only [slLoop, hm]
      apply ih
      rcases h with ⟨q, hq, hqs⟩
      rcases List.mem_cons.mp hq with hhead | htail
      · subst hhead; rw [hm] at hqs; simp at hqs
      · exact ⟨q, htail, hqs⟩

/-- With autobrief off, the rewriter appends one comment-prefixed,
right-stripped copy of every remaining line and emits a single final
batch at the sentinel. -/
lemma runAlter_noAB (opts : Options) (comp : String → CompOutcome) (docLen : Nat)
    (hab : opts.autobrief = false) :
    ∀ (rest : List String) (k : Nat) (lns : List String) (isec : Bool)
      (pfx : String) (fln : Int) (shi : Nat) (cch pch : CheckerSt)
      (out : List Batch),
      1 ≤ k → lns ≠ [] → 0 ≤ fln →
      runAlter opts "" comp docLen
          ((List.enumFrom k rest).map (fun p => (p.1, some p.2)) ++
            [(docLen - 1, none)])
          ⟨lns, false, false, isec, pfx, fln, shi, cch, pch⟩ out =
        some (⟨[], false, false, isec, pfx, -1, shi, cch, pch⟩,
          out ++ [⟨fln, ((docLen - 1 : Nat) : Int),
            lns ++ rest.map fun l => pyReplace ("#" ++ pyRstrip l) " \n" "\n"⟩]) := by
  intro rest
  induction rest with
  | nil =>
    intro k lns isec pfx fln shi cch pch out hk hne hfl
    obtain ⟨v, hv⟩ := getLast?_exists hne
    have hflt : ¬ (fln < 0) := by omega
    simp only [List.enumFrom, List.map_nil, List.nil_append, runAlter, altStep,
      hflt, if_false, flushIfNeeded, endCodeIfNeeded]
    simp [hv, setLast_getLast hv]
  | cons l rs ih =>
    intro k lns isec pfx fln shi cch pch out hk hne hfl
    have hflt : ¬ (fln < 0) := by omega
    have hk0 : ¬ (k = 0) := by omega
    simp only [List.enumFrom, List.map_cons, List.cons_append, runAlter, altStep,
      hflt, if_false, hab, Bool.false_eq_true, finishLine, flushIfNeeded]
    simp only [ne_eq, not_true_eq_false, false_and, if_false, hk0, ite_false]
    have := ih (k + 1) (lns ++ [pyReplace ("#" ++ pyRstrip l) " \n" "\n"]) isec pfx
      fln shi cch pch out (by omega) (by simp) hfl
    rw [List.append_eq, List.append_nil, this]
    simp [List.append_assoc]

/-- On a plain line in the neutral state, the autobrief chain falls all
the way through and the line is simply commented and appended. -/
lemma altStep_plain (opts : Options) (comp : String → CompOutcome) (docLen : Nat)
    (hab : opts.autobrief = true) (lns : List String) (fln : Int) (shi : Nat)
    (cch pch : CheckerSt) (k : Nat) (l : String) (hk : ¬ (k = 0))
    (hfl : ¬ (fln < 0)) (hp : plainLine l) :
    altStep opts "" comp docLen ⟨lns, false, false, false, "", fln, shi, cch, pch⟩
        k (some l) =
      some (⟨lns ++ ["#" ++ pyRstrip l], false, false, false, "", fln, shi, cch, pch⟩,
        []) := by
  obtain ⟨h1, h2, h3, h4, h5, h6, h7, h8, h9⟩ := hp
  have hnl : '\n' ∉ ("#" ++ pyRstrip l).data := by
    rw [data_hash_append]
    intro hmem
    rcases List.mem_cons.mp hmem with hc | hmem2
    · exact absurd hc (by decide)
    · exact h9 (mem_rstrip hmem2)
  simp only [altStep, hfl, if_false, hab, if_true]
  rw [slLoop_nomatch _ _ _ _ _ h1]
  simp only [inSectionStep, Bool.false_eq_true, if_false, autobriefChain, h2, h3,
    chainArgsRE, h4, chainRaises, h5, chainList, h6, false_and, chainExamples, h7,
    chainSection, h8, ne_eq, not_true_eq_false, finishLine, flushIfNeeded, hk,
    ite_false, if_false]
  simp [pyReplace_noop _ hnl]

lemma runAlter_cons {opts : Options} {tail : String} {comp : String → CompOutcome}
    {docLen n : Nat} {l? : Option String} {st st2 : AltSt} {em : List Batch}
    (rest : List (Nat × Option String)) (out : List Batch)
    (h : altStep opts tail comp docLen st n l? = some (st2, em)) :
    runAlter opts tail comp docLen ((n, l?) :: rest) st out =
      runAlter opts tail comp docLen rest st2 (out ++ em) := by
  simp [runAlter, h]

/-- On the block's first line (empty pending buffer, fresh state), a
plain line is double-commented and appended. -/
lemma altStep_plain0 (opts : Options) (comp : String → CompOutcome) (docLen : Nat)
    (hab : opts.autobrief = true) (l : String) (hp : plainLine l) :
    altStep opts "" comp docLen initAltSt 0 (some l) =
      some (⟨["#" ++ ("#" ++ pyRstrip l)], false, false, false, "", 0, 0,
        ⟨false, none⟩, ⟨true, none⟩⟩, []) := by
  obtain ⟨h1, h2, h3, h4, h5, h6, h7, h8, h9⟩ := hp
  have hnl : '\n' ∉ ("#" ++ ("#" ++ pyRstrip l)).data := by
    rw [data_hash_append, data_hash_append]
    intro hmem
    rcases List.mem_cons.mp hmem with hc | hmem2
    · exact absurd hc (by decide)
    · rcases List.mem_cons.mp hmem2 with hc | hmem3
      · exact absurd hc (by decide)
      · exact h9 (mem_rstrip hmem3)
  simp only [altStep, initAltSt, hab, if_true]
  norm_num
  rw [slLoop_nomatch _ _ _ _ _ h1]
  simp only [inSectionStep, Bool.false_eq_true, if_false, autobriefChain, h2, h3,
    chainArgsRE, h4, chainRaises, h5, chainList, h6, false_and, chainExamples, h7,
    chainSection, h8, ne_eq, not_true_eq_false, finishLine, flushIfNeeded,
    ite_false, if_false]
  simp [pyReplace_noop _ hnl]

/-- With autobrief on, a run over plain lines appends one
comment-prefixed, right-stripped copy of each and flushes once at the
sentinel. -/
lemma runAlter_plain (opts : Options) (comp : String → CompOutcome) (docLen : Nat)
    (hab : opts.autobrief = true) :
    ∀ (rest : List String) (k : Nat) (lns : List String) (fln : Int) (shi : Nat)
      (cch pch : CheckerSt) (out : List Batch),
      1 ≤ k → lns ≠ [] → 0 ≤ fln → (∀ l ∈ rest, plainLine l) →
      runAlter opts "" comp docLen
          ((List.enumFrom k rest).map (fun p => (p.1, some p.2)) ++
            [(docLen - 1, none)])
          ⟨lns, false, false, false, "", fln, shi, cch, pch⟩ out =
        some (⟨[], false, false, false, "", -1, shi, cch, pch⟩,
          out ++ [⟨fln, ((docLen - 1 : Nat) : Int),
            lns ++ rest.map fun l => "#" ++ pyRstrip l⟩]) := by
  intro rest
  induction rest with
  | nil =>
    intro k lns fln shi cch pch out hk hne hfl _
    obtain ⟨v, hv⟩ := getLast?_exists hne
    have hflt : ¬ (fln < 0) := by omega
    simp only [List.enumFrom, List.map_nil, List.nil_append, runAlter, altStep,
      hflt, if_false, flushIfNeeded, endCodeIfNeeded]
    simp [hv, setLast_getLast hv]
  | cons l rs ih =>
    intro k lns fln shi cch pch out hk hne hfl hp
    have hflt : ¬ (fln < 0) := by omega
    have hk0 : ¬ (k = 0) := by omega
    simp only [List.enumFrom, List.map_cons, List.cons_append]
    rw [runAlter_cons _ _ (altStep_plain opts comp docLen hab lns fln shi cch pch
      k l hk0 hflt (hp l (by simp))), List.append_nil]
    have := ih (k + 1) (lns ++ ["#" ++ pyRstrip l]) fln shi cch pch out
      (by omega) (by simp) hfl (fun q hq => hp q (by simp [hq]))
    rw [this]
    simp [List.append_assoc]

lemma enumFrom_render (ds : List String) : ∀ k, 1 ≤ k →
    ((List.enumFrom k ds).map fun p =>
      (if p.1 = 0 then "##" else "#") ++ pyRstrip p.2) =
      ds.map fun l => "#" ++ pyRstrip l := by
  induction ds with
  | nil => intro k _; simp
  | cons d ds ih =>
    intro k hk
    have hk0 : ¬ (k = 0) := by omega
    simp only [List.enumFrom, List.map_cons, hk0, ite_false, if_false]
    rw [ih (k + 1) (by omega)]

lemma hash2 (x : String) : ("##" : String) ++ x = "#" ++ ("#" ++ x) := by
  apply String.ext
  simp [String.data_append]

/-! ## Character-level facts used to separate the heading patterns -/

lemma ciStarts1 {p : Char} {ps r : List Char}
    (h : (ciPrefixSplit (p :: ps) r).isSome) :
    ∃ c t, r = c :: t ∧ c.toLower = p.toLower := by
  cases r with
  | nil => simp [ciPrefixSplit] at h
  | cons c t =>
    refine ⟨c, t, rfl, ?_⟩
    rw [ciPrefixSplit] at h
    by_cases hc : ciEqCh p c = true
    · exact beq_iff_eq.mp hc
    · simp [hc] at h

lemma ciStarts2 {p0 p1 : Char} {ps r : List Char}
    (h : (ciPrefixSplit (p0 :: p1 :: ps) r).isSome) :
    ∃ c0 c1 t, r = c0 :: c1 :: t ∧ c0.toLower = p0.toLower ∧
      c1.toLower = p1.toLower := by
  cases r with
  | nil => simp [ciPrefixSplit] at h
  | cons c0 t0 =>
    rw [ciPrefixSplit] at h
    by_cases hc : ciEqCh p0 c0 = true
    · simp only [hc, if_true] at h
      have h2 : (ciPrefixSplit (p1 :: ps) t0).isSome := by
        cases hx : ciPrefixSplit (p1 :: ps) t0 with
        | none => rw [hx] at h; simp at h
        | some y => simp
      obtain ⟨c1, t, ht, hl⟩ := ciStarts1 h2
      exact ⟨c0, c1, t, by rw [ht], beq_iff_eq.mp hc, hl⟩
    · simp [hc] at h

lemma ciSplit_some_rest {p : Char} {r : List Char} {x : List Char × List Char}
    (h : ciPrefixSplit [p] r = some x) :
    ∃ c t, r = c :: t ∧ c.toLower = p.toLower ∧ x.2 = t := by
  cases r with
  | nil => simp [ciPrefixSplit] at h
  | cons c t =>
    rw [ciPrefixSplit] at h
    by_cases hc : ciEqCh p c = true
    · simp only [hc, if_true, ciPrefixSplit] at h
      exact ⟨c, t, rfl, beq_iff_eq.mp hc,
        (congrArg Prod.snd (Option.some.inj h)).symm⟩
    · simp [hc] at h

lemma fullKw_isSome {kw : String} {r : List Char} (h : fullKw kw r = true) :
    (ciPrefixSplit kw.data r).isSome := by
  rw [fullKw] at h
  cases hx : ciPrefixSplit kw.data r with
  | none => rw [hx] at h; simp at h
  | some y => simp

lemma slMatch_isSome {label : String} {optS : Bool} {line : String} {g : String}
    (h : slMatchCore label optS line = some g) :
    (ciPrefixSplit label.data (line.data.dropWhile pyIsSpace)).isSome := by
  rw [slMatchCore] at h
  cases hx : ciPrefixSplit label.data (line.data.dropWhile pyIsSpace) with
  | none => rw [hx] at h; simp at h
  | some y => simp

lemma returnsStart_shape {s : String} (h : returnsStartMatch s = true) :
    ∃ c t, s.data.dropWhile pyIsSpace = c :: t ∧
      ((c.toLower = 'r' ∧ ∃ c1 t1, t = c1 :: t1 ∧ c1.toLower = 'e') ∨
        c.toLower = 'y') := by
  rw [returnsStartMatch, Bool.or_eq_true] at h
  rcases h with h1 | h1
  · have hd : ("returns:" : String).data =
        'r' :: 'e' :: ['t', 'u', 'r', 'n', 's', ':'] := rfl
    have := fullKw_isSome h1
    rw [hd] at this
    obtain ⟨c0, c1, t, hr, h0, h1c⟩ := ciStarts2 this
    exact ⟨c0, c1 :: t, hr, Or.inl ⟨h0, c1, t, rfl, h1c⟩⟩
  · have hd : ("yields:" : String).data = 'y' :: ['i', 'e', 'l', 'd', 's', ':'] := rfl
    have := fullKw_isSome h1
    rw [hd] at this
    obtain ⟨c0, t, hr, h0⟩ := ciStarts1 this
    exact ⟨c0, t, hr, Or.inr h0⟩

lemma raisesStart_shape {s : String} {b : Bool} (h : raisesStartMatch s = some b) :
    ∃ c t, s.data.dropWhile pyIsSpace = c :: t ∧
      ((c.toLower = 'r' ∧ ∃ c1 t1, t = c1 :: t1 ∧ c1.toLower = 'a') ∨
        c.toLower = 'e' ∨ c.toLower = 's') := by
  rw [raisesStartMatch] at h
  by_cases h1 : fullKw "raises:" (s.data.dropWhile pyIsSpace) = true
  · have hd : ("raises:" : String).data = 'r' :: 'a' :: ['i', 's', 'e', 's', ':'] := rfl
    have := fullKw_isSome h1
    rw [hd] at this
    obtain ⟨c0, c1, t, hr, h0, h1c⟩ := ciStarts2 this
    exact ⟨c0, c1 :: t, hr, Or.inl ⟨h0, c1, t, rfl, h1c⟩⟩
  · rw [if_neg h1] at h
    by_cases h2 : fullKw "exceptions:" (s.data.dropWhile pyIsSpace) = true
    · have hd : ("exceptions:" : String).data =
          'e' :: ['x', 'c', 'e', 'p', 't', 'i', 'o', 'n', 's', ':'] := rfl
      have := fullKw_isSome h2
      rw [hd] at this
      obtain ⟨c0, t, hr, h0⟩ := ciStarts1 this
      exact ⟨c0, t, hr, Or.inr (Or.inl h0)⟩
    · rw [if_neg h2] at h
      by_cases h3 : fullKw "see also:" (s.data.dropWhile pyIsSpace) = true
      · have hd : ("see also:" : String).data =
            's' :: ['e', 'e', ' ', 'a', 'l', 's', 'o', ':'] := rfl
        have := fullKw_isSome h3
        rw [hd] at this
        obtain ⟨c0, t, hr, h0⟩ := ciStarts1 this
        exact ⟨c0, t, hr, Or.inr (Or.inr h0)⟩
      · rw [if_neg h3] at h
        simp at h

lemma argAlt_shape {r : List Char} (h : argAltMatch r = true) :
    ∃ c t, r = c :: t ∧
      ((c.toLower = 'a' ∧ ∃ c1 t1, t = c1 :: t1 ∧ c1.toLower = 'r') ∨
        c.toLower = 'k') := by
  rw [argAltMatch, Bool.or_eq_true] at h
  rcases h with h1 | h1
  · cases hx : ciPrefixSplit ("a" : String).data r with
    | none => rw [hx] at h1; simp at h1
    | some y =>
      obtain ⟨w, r1⟩ := y
      rw [hx] at h1
      have h2 : argTailMatch r1 = true := h1
      have hxa : ciPrefixSplit ['a'] r = some (w, r1) := hx
      obtain ⟨c, t, hr, hcl, hy2⟩ := ciSplit_some_rest hxa
      have hy2' : r1 = t := hy2
      unfold argTailMatch at h2
      cases hrg : ciPrefixSplit ("rg" : String).data r1 with
      | none => rw [hrg] at h2; simp at h2
      | some z =>
        have hsome : (ciPrefixSplit ('r' :: ['g']) r1).isSome := by
          rw [show ('r' :: ['g']) = ("rg" : String).data from rfl, hrg]; simp
        obtain ⟨c1, t1, ht1, h1c⟩ := ciStarts1 hsome
        rw [hy2'] at ht1
        exact ⟨c, t, hr, Or.inl ⟨hcl, c1, t1, ht1, h1c⟩⟩
  · cases hx : ciPrefixSplit ("kwa" : String).data r with
    | none => rw [hx] at h1; simp at h1
    | some y =>
      have : (ciPrefixSplit ('k' :: ['w', 'a']) r).isSome := by
        rw [show ('k' :: ['w', 'a']) = ("kwa" : String).data from rfl, hx]; simp
      obtain ⟨c, t, hr, hcl⟩ := ciStarts1 this
      exact ⟨c, t, hr, Or.inr hcl⟩

lemma argsStart_shape {s : String} (h : argsStartMatch s = true) :
    ∃ c t, s.data.dropWhile pyIsSpace = c :: t ∧
      (c.toLower = 'k' ∨
        (c.toLower = 'a' ∧ ∃ c1 t1, t = c1 :: t1 ∧
          (c1.toLower = 'r' ∨ c1.toLower = 't'))) := by
  rw [argsStartMatch, Bool.or_eq_true, Bool.or_eq_true] at h
  rcases h with (h1 | h1) | h1
  · cases hx : ciPrefixSplit ("keyword" : String).data (s.data.dropWhile pyIsSpace) with
    | none => rw [hx] at h1; simp at h1
    | some y =>
      have : (ciPrefixSplit ('k' :: ['e', 'y', 'w', 'o', 'r', 'd'])
          (s.data.dropWhile pyIsSpace)).isSome := by
        rw [show ('k' :: ['e', 'y', 'w', 'o', 'r', 'd']) =
          ("keyword" : String).data from rfl, hx]
        simp
      obtain ⟨c, t, hr, hcl⟩ := ciStarts1 this
      exact ⟨c, t, hr, Or.inl hcl⟩
  · obtain ⟨c, t, hr, hc⟩ := argAlt_shape h1
    rcases hc with ⟨ha, c1, t1, ht1, h1c⟩ | hk
    · exact ⟨c, t, hr, Or.inr ⟨ha, c1, t1, ht1, Or.inl h1c⟩⟩
    · exact ⟨c, t, hr, Or.inl hk⟩
  · cases hx : ciPrefixSplit ("attribute" : String).data (s.data.dropWhile pyIsSpace) with
    | none => rw [hx] at h1; simp at h1
    | some y =>
      have : (ciPrefixSplit ('a' :: 't' :: ['t', 'r', 'i', 'b', 'u', 't', 'e'])
          (s.data.dropWhile pyIsSpace)).isSome := by
        rw [show ('a' :: 't' :: ['t', 'r', 'i', 'b', 'u', 't', 'e']) =
          ("attribute" : String).data from rfl, hx]
        simp
      obtain ⟨c0, c1, t, hr, h0, h1c⟩ := ciStarts2 this
      exact ⟨c0, c1 :: t, hr, Or.inr ⟨h0, c1, t, rfl, Or.inr h1c⟩⟩

lemma slMatch_shape {label : String} {optS : Bool} {line : String} {g : String}
    {p0 p1 : Char} {ps : List Char} (hd : label.data = p0 :: p1 :: ps)
    (h : slMatchCore label optS line = some g) :
    ∃ c0 c1 t, line.data.dropWhile pyIsSpace = c0 :: c1 :: t ∧
      c0.toLower = p0.toLower ∧ c1.toLower = p1.toLower := by
  have := slMatch_isSome h
  rw [hd] at this
  exact ciStarts2 this

/-- A line whose first significant characters rule out every
single-line-tag label matches none of the seven patterns. -/
lemma sl_none_of_head {line : String} {c : Char} {t : List Char}
    (hr : line.data.dropWhile pyIsSpace = c :: t)
    (hno : c.toLower ≠ 'a' ∨ ∀ c1 t1, t = c1 :: t1 → c1.toLower ≠ 'u')
    (hc : c.toLower ≠ 'c') (hd : c.toLower ≠ 'd') (hf : c.toLower ≠ 'f')
    (hv : c.toLower ≠ 'v') (hn : c.toLower ≠ 'n') (hw : c.toLower ≠ 'w') :
    ∀ p ∈ slPatterns, slMatchCore p.2.1 p.2.2 line = none := by
  intro p hp
  cases hm : slMatchCore p.2.1 p.2.2 line with
  | none => rfl
  | some g =>
    exfalso
    simp only [slPatterns, List.mem_cons, List.not_mem_nil, or_false] at hp
    rcases hp with rfl | rfl | rfl | rfl | rfl | rfl | rfl
    · obtain ⟨c0, c1, t', hr', h0, h1⟩ := slMatch_shape
        (show ("author" : String).data = 'a' :: 'u' :: ['t', 'h', 'o', 'r'] from rfl) hm
      rw [hr] at hr'
      injection hr' with e1 e2
      subst e1
      rcases hno with hna | hnu
      · exact hna (by rw [h0]; decide)
      · exact hnu c1 t' e2 (by rw [h1]; decide)
    · obtain ⟨c0, c1, t', hr', h0, _⟩ := slMatch_shape
        (show ("copyright" : String).data = 'c' :: 'o' :: ['p', 'y', 'r', 'i', 'g', 'h', 't'] from rfl) hm
      rw [hr] at hr'
      injection hr' with e1 _
      subst e1
      exact hc (by rw [h0]; decide)
    · obtain ⟨c0, c1, t', hr', h0, _⟩ := slMatch_shape
        (show ("date" : String).data = 'd' :: 'a' :: ['t', 'e'] from rfl) hm
      rw [hr] at hr'
      injection hr' with e1 _
      subst e1
      exact hd (by rw [h0]; decide)
    · obtain ⟨c0, c1, t', hr', h0, _⟩ := slMatch_shape
        (show ("file" : String).data = 'f' :: 'i' :: ['l', 'e'] from rfl) hm
      rw [hr] at hr'
      injection hr' with e1 _
      subst e1
      exact hf (by rw [h0]; decide)
    · obtain ⟨c0, c1, t', hr', h0, _⟩ := slMatch_shape
        (show ("version" : String).data = 'v' :: 'e' :: ['r', 's', 'i', 'o', 'n'] from rfl) hm
      rw [hr] at hr'
      injection hr' with e1 _
      subst e1
      exact hv (by rw [h0]; decide)
    · obtain ⟨c0, c1, t', hr', h0, _⟩ := slMatch_shape
        (show ("note" : String).data = 'n' :: 'o' :: ['t', 'e'] from rfl) hm
      rw [hr] at hr'
      injection hr' with e1 _
      subst e1
      exact hn (by rw [h0]; decide)
    · obtain ⟨c0, c1, t', hr', h0, _⟩ := slMatch_shape
        (show ("warning" : String).data = 'w' :: 'a' :: ['r', 'n', 'i', 'n', 'g'] from rfl) hm
      rw [hr] at hr'
      injection hr' with e1 _
      subst e1
      exact hw (by rw [h0]; decide)

lemma returnsStart_false_of_head {l : String} {c : Char} {t : List Char}
    (hr : l.data.dropWhile pyIsSpace = c :: t)
    (hcr : c.toLower = 'r' → ∀ c1 t1, t = c1 :: t1 → c1.toLower ≠ 'e')
    (hcy : c.toLower ≠ 'y') :
    returnsStartMatch l = false := by
  cases hm : returnsStartMatch l with
  | false => rfl
  | true =>
    exfalso
    obtain ⟨c0, t0, hr0, hor⟩ := returnsStart_shape hm
    rw [hr] at hr0
    injection hr0 with e1 e2
    subst e1
    rcases hor with ⟨ha, c1, t1, ht1, he⟩ | hy
    · exact hcr ha c1 t1 (e2.trans ht1) he
    · exact hcy hy

lemma argsStart_false_of_head {l : String} {c : Char} {t : List Char}
    (hr : l.data.dropWhile pyIsSpace = c :: t)
    (hk : c.toLower ≠ 'k') (ha : c.toLower ≠ 'a') :
    argsStartMatch l = false := by
  cases hm : argsStartMatch l with
  | false => rfl
  | true =>
    exfalso
    obtain ⟨c0, t0, hr0, hor⟩ := argsStart_shape hm
    rw [hr] at hr0
    injection hr0 with e1 _
    subst e1
    rcases hor with h' | ⟨h', _⟩
    · exact hk h'
    · exact ha h'

/-! ## Claim theorems -/

/-- C1 — the code-block balance property fails on the code. For the
documentation block `["Brief.", "", "Examples:"]` (a docstring whose
final line is an Examples heading), with autobrief and autocode on, the
run emits the markers `[# @endcode, # @code]`: the flush prepends the
closing marker to the final pending line, which is the very line
carrying the `# @code` opened by the Examples heading, so the emitted
`# @code` has no later matching `# @endcode` in the block. -/
theorem alterDocstring_unbalanced_markers :
    runMarkers ⟨true, true, 4⟩ "" (fun _ => CompOutcome.othErr)
        ["Brief.", "", "Examples:"] = some [false, true] ∧
    codesClosed [false, true] = false := by
  constructor
  · rfl
  · rfl

/-- C5 counterexample — on exactly the input documentation lines
`Args:` followed by `    x (int): the value`, with autobrief on, the
rewriter does not produce two annotation lines: the `Args:` heading is
the block's first line, the pending-lines buffer is empty, and the
`lines[-1]` access fails, so the whole rewrite errors out. -/
theorem argsScenario_firstLine_fails :
    alterDocstring ⟨true, true, 4⟩ "" (fun _ => CompOutcome.othErr)
      ["Args:", "    x (int): the value"] = none := by
  rfl

/-- C5 (amended) — when the two lines are preceded by a line in the
same block, the rewriter emits, for them, an empty comment line for the
stripped `Args:` heading and the single parameter annotation line
`# @param\t\tx\tthe value`: the name `x` and the description
`the value` under the `@param` prefix; the captured type `(int)` does
not appear in the output. -/
theorem argsScenario_with_lead :
    (alterDocstring ⟨true, true, 4⟩ "" (fun _ => CompOutcome.othErr)
        ["intro", "Args:", "    x (int): the value"]).map Prod.snd =
      some [⟨0, 2, ["##intro", "#", "# @param\t\tx\tthe value"]⟩] := by
  rfl

/-- C3 — the block writer pads the batch with empty strings to at least
the span length `lastLineNum - firstLineNum + 1`, replaces exactly the
slice `[firstLineNum, lastLineNum + 1)` of the buffer with the padded
list, leaves the buffer outside that slice unchanged, and never
decreases the number of lines in the touched span (so never shrinks the
buffer). -/
theorem writeDocstring_spec (docLines lines : List String)
    (firstLineNum lastLineNum : Nat) (h1 : firstLineNum ≤ lastLineNum + 1)
    (h2 : lastLineNum + 1 ≤ docLines.length) :
    writeDocstring docLines firstLineNum lastLineNum lines =
      docLines.take firstLineNum ++ paddedLines firstLineNum lastLineNum lines ++
        docLines.drop (lastLineNum + 1) ∧
    lastLineNum + 1 - firstLineNum ≤
      (paddedLines firstLineNum lastLineNum lines).length ∧
    (writeDocstring docLines firstLineNum lastLineNum lines).take firstLineNum =
      docLines.take firstLineNum ∧
    (writeDocstring docLines firstLineNum lastLineNum lines).drop
        (firstLineNum + (paddedLines firstLineNum lastLineNum lines).length) =
      docLines.drop (lastLineNum + 1) ∧
    docLines.length ≤ (writeDocstring docLines firstLineNum lastLineNum lines).length := by
  set padded := paddedLines firstLineNum lastLineNum lines with hpadded
  have hdef : writeDocstring docLines firstLineNum lastLineNum lines =
      docLines.take firstLineNum ++ padded ++ docLines.drop (lastLineNum + 1) := rfl
  have hlenpad : lastLineNum + 1 - firstLineNum ≤ padded.length := by
    have : padded.length = lines.length +
        (((lastLineNum : Int) - (firstLineNum : Int) + 1 - (lines.length : Int)).toNat) := by
      simp [hpadded, paddedLines]
    omega
  have htakelen : (docLines.take firstLineNum).length = firstLineNum := by
    rw [List.length_take]; omega
  refine ⟨hdef, hlenpad, ?_, ?_, ?_⟩
  · rw [hdef, List.append_assoc, List.take_append_of_le_length (by omega),
      List.take_take, min_self]
  · rw [hdef, List.append_assoc, List.drop_append_eq_append_drop]
    rw [htakelen]
    have hd1 : firstLineNum + padded.length - firstLineNum = padded.length := by omega
    rw [List.drop_eq_nil_of_le (by omega), hd1, List.nil_append,
      List.drop_append_eq_append_drop, List.drop_eq_nil_of_le (by omega),
      Nat.sub_self, List.nil_append, List.drop_zero]
  · rw [hdef]
    simp only [List.length_append, htakelen, List.length_drop]
    omega

/-- C3 witness. -/
theorem writeDocstring_spec_witness :
    writeDocstring ["a", "b", "c", "d"] 1 2 ["X"] = ["a", "X", "", "d"] ∧
    2 ≤ (paddedLines 1 2 ["X"]).length := by
  have h := writeDocstring_spec ["a", "b", "c", "d"] ["X"] 1 2 (by decide) (by decide)
  refine ⟨?_, ?_⟩
  · rw [h.1]; rfl
  · exact h.2.1

/-- C4 — the visibility classifier: a name starting with exactly one
underscore and not ending in two is `protected`; a name starting with
two underscores and not ending in two is `private`; a name ending in
two underscores gets no restriction and `_processMembers` leaves its
context tag untouched. -/
theorem checkMemberName_spec (name : String) :
    (pyStartswith name "_" = true → pyStartswith name "__" = false →
      pyEndswith name "__" = false → checkMemberName name = some "protected") ∧
    (pyStartswith name "__" = true → pyEndswith name "__" = false →
      checkMemberName name = some "private") ∧
    (pyEndswith name "__" = true →
      checkMemberName name = none ∧ ∀ tag, processMembers name tag = tag) := by
  refine ⟨?_, ?_, ?_⟩
  · intro h1 h2 h3
    simp [checkMemberName, h1, h2, h3]
  · intro h1 h2
    simp [checkMemberName, h1, h2]
  · intro h1
    have hc : checkMemberName name = none := by simp [checkMemberName, h1]
    exact ⟨hc, fun tag => by simp [processMembers, hc]⟩

/-- C4 witness. -/
theorem checkMemberName_spec_witness :
    checkMemberName "_bed" = some "protected" ∧
    checkMemberName "__mangled" = some "private" ∧
    (checkMemberName "init__" = none ∧ processMembers "init__" "tag" = "tag") := by
  refine ⟨?_, ?_, ?_, ?_⟩
  · exact (checkMemberName_spec "_bed").1 (by decide) (by decide) (by decide)
  · exact (checkMemberName_spec "__mangled").2.1 (by decide) (by decide)
  · exact ((checkMemberName_spec "init__").2.2 (by decide)).1
  · exact ((checkMemberName_spec "init__").2.2 (by decide)).2 "tag"

/-- C6 — a class definition line matching the interface-base pattern
always yields the `@interface` directive in its context tag and pushes
kind `interface`, never the ordinary `class` kind or the unannotated
class tag. -/
theorem classDefInfo_interface (line tail g : String)
    (h : interfaceMatch line = some g) :
    (classDefInfo line tail).1 = "interface" ∧
    (classDefInfo line tail).1 ≠ "class" ∧
    (classDefInfo line tail).2 = tail ++ "\n" ++ "# @interface " ++ g ∧
    (classDefInfo line tail).2 ≠ tail := by
  refine ⟨by simp [classDefInfo, h], by simp [classDefInfo, h], by simp [classDefInfo, h], ?_⟩
  intro heq
  rw [classDefInfo, h] at heq
  have hl := congrArg String.length heq
  simp only [String.length_append] at hl
  have h1 : ("\n").length = 1 := rfl
  have h2 : ("# @interface ").length = 13 := rfl
  omega

/-- C6 witness. -/
theorem classDefInfo_interface_witness :
    (classDefInfo "class IFoo(zope.interface.Interface):" "@namespace a.IFoo").1 =
      "interface" ∧
    (classDefInfo "class IFoo(zope.interface.Interface):" "@namespace a.IFoo").2 =
      "@namespace a.IFoo" ++ "\n" ++ "# @interface " ++ "IFoo" := by
  have h := classDefInfo_interface "class IFoo(zope.interface.Interface):"
    "@namespace a.IFoo" "IFoo" (by decide)
  exact ⟨h.1, h.2.2.1⟩

/-- C10 — the final splice of `_processDocstring`: for classes and
functions the rewritten docstring lines land in the buffer before the
declaration lines, while for the module the declaration lines come
first; outside the replaced region the buffer is unchanged. -/
theorem processDocstringSplice_spec (lines docLines defLines : List String)
    (startLineNum endLineNum : Nat) (h1 : startLineNum ≤ lines.length) :
    (processDocstringSplice false lines startLineNum endLineNum docLines defLines =
      lines.take startLineNum ++ docLines ++ defLines ++ lines.drop endLineNum) ∧
    (processDocstringSplice true lines startLineNum endLineNum docLines defLines =
      lines.take startLineNum ++ defLines ++ docLines ++ lines.drop endLineNum) ∧
    (∀ i, i < docLines.length →
      (processDocstringSplice false lines startLineNum endLineNum docLines defLines)[startLineNum + i]? = docLines[i]?) ∧
    (∀ j, j < defLines.length →
      (processDocstringSplice false lines startLineNum endLineNum docLines defLines)[startLineNum + docLines.length + j]? = defLines[j]?) ∧
    (∀ j, j < defLines.length →
      (processDocstringSplice true lines startLineNum endLineNum docLines defLines)[startLineNum + j]? = defLines[j]?) ∧
    (∀ i, i < docLines.length →
      (processDocstringSplice true lines startLineNum endLineNum docLines defLines)[startLineNum + defLines.length + i]? = docLines[i]?) := by
  have htake : (lines.take startLineNum).length = startLineNum := by
    rw [List.length_take]; omega
  refine ⟨by simp [processDocstringSplice], by simp [processDocstringSplice],
    ?_, ?_, ?_, ?_⟩
  · intro i hi
    show (lines.take startLineNum ++ (docLines ++ defLines) ++ lines.drop endLineNum)[_]? = _
    rw [List.append_assoc, List.getElem?_append_right (by omega), htake,
      Nat.add_sub_cancel_left, List.append_assoc, List.getElem?_append_left hi]
  · intro j hj
    show (lines.take startLineNum ++ (docLines ++ defLines) ++ lines.drop endLineNum)[_]? = _
    rw [List.append_assoc, List.getElem?_append_right (by omega), htake]
    have h3 : startLineNum + docLines.length + j - startLineNum = docLines.length + j := by
      omega
    rw [h3, List.append_assoc, List.getElem?_append_right (by omega),
      Nat.add_sub_cancel_left, List.getElem?_append_left hj]
  · intro j hj
    show (lines.take startLineNum ++ (defLines ++ docLines) ++ lines.drop endLineNum)[_]? = _
    rw [List.append_assoc, List.getElem?_append_right (by omega), htake,
      Nat.add_sub_cancel_left, List.append_assoc, List.getElem?_append_left hj]
  · intro i hi
    show (lines.take startLineNum ++ (defLines ++ docLines) ++ lines.drop endLineNum)[_]? = _
    rw [List.append_assoc, List.getElem?_append_right (by omega), htake]
    have h3 : startLineNum + defLines.length + i - startLineNum = defLines.length + i := by
      omega
    rw [h3, List.append_assoc, List.getElem?_append_right (by omega),
      Nat.add_sub_cancel_left, List.getElem?_append_left hi]

/-- C10 witness. -/
theorem processDocstringSplice_spec_witness :
    processDocstringSplice false ["d1", "d2", "x"] 0 2 ["#doc"] ["def f():"] =
      ["#doc", "def f():", "x"] ∧
    processDocstringSplice true ["d1", "d2", "x"] 0 2 ["#doc"] ["import os"] =
      ["import os", "#doc", "x"] := by
  have h := processDocstringSplice_spec ["d1", "d2", "x"] ["#doc"] ["def f():"] 0 2
    (by decide)
  have h2 := processDocstringSplice_spec ["d1", "d2", "x"] ["#doc"] ["import os"] 0 2
    (by decide)
  exact ⟨by rw [h.1]; rfl, by rw [h2.2.1]; rfl⟩

/-- C8 — in the code/prose checker: an indeterminate (`None`)
classification changes nothing (in particular it never closes an open
code block); while inside a code block the pending lines are modified
only on the definitive `False` classification (which inserts the close
marker); and the classification loop produces the definitive `False`
only when speculative compilation of the accumulated text raises
`SyntaxError`/`RuntimeError`. -/
theorem checkIfCode_spec :
    (∀ (icb : Bool) (cur : Int) (lines : List String),
      insertMarkers icb none cur lines = some (icb, lines)) ∧
    (∀ (loc : Option Bool) (cur : Int) (lines : List String)
        (res : Bool × List String),
      insertMarkers true loc cur lines = some res → res.2 ≠ lines →
        loc = some false) ∧
    (∀ (comp : String → CompOutcome) (lines : List String) (tl : String)
        (tln : Nat) (cur lineNum cur2 : Int) (loc : Option Bool),
      checkIterate comp lines tl tln cur lineNum = some (.classified loc cur2) →
        loc = some false → comp tl = .synErr) := by
  refine ⟨?_, ?_, ?_⟩
  · intro icb cur lines
    simp [insertMarkers]
  · intro loc cur lines res hm hne
    rcases loc with _ | b
    · rw [insertMarkers] at hm
      simp at hm
      exact absurd (congrArg Prod.snd hm).symm hne
    · rcases b with _ | _
      · rfl
      · rw [insertMarkers] at hm
        simp at hm
        exact absurd (congrArg Prod.snd hm).symm hne
  · intro comp lines tl tln cur lineNum cur2 loc hit hfalse
    subst hfalse
    rw [checkIterate] at hit
    split at hit
    · exact absurd hit (by simp)
    split at hit
    · exact absurd hit (by simp)
    · cases hc : comp tl
      case done =>
        cases hg : pyGet lines cur
        · simp [hc, hg] at hit
        case some v =>
          by_cases hps : pyStartswith (pyStrip v) "#" = true
          · simp [hc, hg, hps] at hit
          · simp [hc, hg, hps] at hit
      case more => simp [hc] at hit
      case synErr => rfl
      case othErr => simp [hc] at hit

/-- C8 witness. -/
theorem checkIfCode_spec_witness :
    insertMarkers true none 2 ["#a", "#b", "#c"] = some (true, ["#a", "#b", "#c"]) ∧
    (fun _ => CompOutcome.synErr) "some prose sentence" = CompOutcome.synErr := by
  constructor
  · exact checkIfCode_spec.1 true 2 ["#a", "#b", "#c"]
  · exact checkIfCode_spec.2.2 (fun _ => CompOutcome.synErr) ["#x"]
      "some prose sentence" 1 0 1 0 (some false) (by decide) rfl

/-- C2 — with autobrief disabled, a nonempty documentation block is
rewritten into exactly one batch with exactly as many lines as the
input block, every line starting with the comment marker `#`, and the
block-writer splice of that batch replaces the whole block one line for
one line (no length change). -/
theorem alterDocstring_noAutobrief (opts : Options) (comp : String → CompOutcome)
    (docLines : List String) (hab : opts.autobrief = false)
    (hne : docLines ≠ []) :
    ∃ st outLines,
      alterDocstring opts "" comp docLines =
        some (st, [⟨0, ((docLines.length - 1 : Nat) : Int), outLines⟩]) ∧
      outLines.length = docLines.length ∧
      (∀ o ∈ outLines, pyStartswith o "#" = true) ∧
      writeDocstring docLines 0 (docLines.length - 1) outLines = outLines := by
  cases docLines with
  | nil => exact absurd rfl hne
  | cons d ds =>
    refine ⟨⟨[], false, false, false, "", -1, 0, ⟨false, none⟩, ⟨true, none⟩⟩,
      pyReplace ("#" ++ ("#" ++ pyRstrip d)) " \n" "\n" ::
        ds.map (fun l => pyReplace ("#" ++ pyRstrip l) " \n" "\n"), ?_, ?_, ?_, ?_⟩
    · rw [alterDocstring, docItems]
      have henum : (d :: ds).enum = (0, d) :: List.enumFrom 1 ds := by
        simp [List.enum]
      rw [henum]
      simp only [List.map_cons, List.cons_append, runAlter, altStep, initAltSt]
      norm_num
      simp only [hab, Bool.false_eq_true, if_false, finishLine, flushIfNeeded]
      simp only [ne_eq, not_true_eq_false, false_and, if_false, ite_true,
        List.nil_append, ite_false, if_true]
      have := runAlter_noAB opts comp (ds.length + 1) hab ds 1
        [pyReplace ("#" ++ ("#" ++ pyRstrip d)) " \n" "\n"] false "" 0 0
        ⟨false, none⟩ ⟨true, none⟩ [] (le_refl 1) (by simp) (by omega)
      simp only [List.length_cons, Nat.add_sub_cancel] at this ⊢
      rw [this]
      simp
    · simp
    · intro o ho
      rcases List.mem_cons.mp ho with h1 | h2
      · subst h1; exact startswith_hash ("#" ++ pyRstrip d)
      · obtain ⟨l, _, hl⟩ := List.mem_map.mp h2
        subst hl; exact startswith_hash (pyRstrip l)
    · rw [writeDocstring]
      have hlen : (pyReplace ("#" ++ ("#" ++ pyRstrip d)) " \n" "\n" ::
          ds.map (fun l => pyReplace ("#" ++ pyRstrip l) " \n" "\n")).length =
          ds.length + 1 := by simp
      simp only [List.length_cons, Nat.add_sub_cancel, hlen]
      have hz : (((ds.length : Int)) - ((0 : Nat) : Int) + 1 -
          ((ds.length + 1 : Nat) : Int)).toNat = 0 := by
        push_cast
        omega
      rw [hz]
      simp [List.drop_eq_nil_of_le]

/-- C2 witness. -/
theorem alterDocstring_noAutobrief_witness :
    ∃ st outLines,
      alterDocstring ⟨false, false, 4⟩ "" (fun _ => CompOutcome.othErr)
          ["Summary.", " detail "] =
        some (st, [⟨0, (((["Summary.", " detail "] : List String).length - 1 : Nat) : Int),
          outLines⟩]) ∧
      outLines.length = (["Summary.", " detail "] : List String).length ∧
      (∀ o ∈ outLines, pyStartswith o "#" = true) ∧
      writeDocstring ["Summary.", " detail "] 0
        ((["Summary.", " detail "] : List String).length - 1) outLines = outLines :=
  alterDocstring_noAutobrief ⟨false, false, 4⟩ (fun _ => CompOutcome.othErr)
    ["Summary.", " detail "] rfl (by decide)

/-- C7 — a documentation block already free of special markers, run
with autobrief on, is rewritten into a single batch whose lines are the
original lines right-stripped and prefixed with the comment marker
(doubled on the first line): stripping the added comment markers
recovers the original block text modulo trailing whitespace. -/
theorem alterDocstring_roundTrip (opts : Options) (comp : String → CompOutcome)
    (docLines : List String) (hab : opts.autobrief = true)
    (hne : docLines ≠ []) (hp : ∀ l ∈ docLines, plainLine l) :
    ∃ st, alterDocstring opts "" comp docLines =
      some (st, [⟨0, ((docLines.length - 1 : Nat) : Int),
        docLines.enum.map fun p =>
          (if p.1 = 0 then "##" else "#") ++ pyRstrip p.2⟩]) := by
  cases docLines with
  | nil => exact absurd rfl hne
  | cons d ds =>
    refine ⟨⟨[], false, false, false, "", -1, 0, ⟨false, none⟩, ⟨true, none⟩⟩, ?_⟩
    rw [alterDocstring, docItems]
    have henum : (d :: ds).enum = (0, d) :: List.enumFrom 1 ds := by
      simp [List.enum]
    rw [henum]
    simp only [List.map_cons, List.cons_append]
    rw [runAlter_cons _ _ (altStep_plain0 opts comp (d :: ds).length hab d
      (hp d (by simp))), List.append_nil]
    have := runAlter_plain opts comp (d :: ds).length hab ds 1
      ["#" ++ ("#" ++ pyRstrip d)] 0 0 ⟨false, none⟩ ⟨true, none⟩ []
      (le_refl 1) (by simp) (by omega) (fun q hq => hp q (by simp [hq]))
    simp only [List.length_cons, Nat.add_sub_cancel] at this ⊢
    rw [this, enumFrom_render ds 1 (le_refl 1)]
    simp [hash2]

/-- C7 witness. -/
theorem alterDocstring_roundTrip_witness :
    ∃ st, alterDocstring ⟨true, true, 4⟩ "" (fun _ => CompOutcome.othErr)
        ["Hello world.", "second line here"] =
      some (st, [⟨0,
        (((["Hello world.", "second line here"] : List String).length - 1 : Nat) : Int),
        (["Hello world.", "second line here"] : List String).enum.map fun p =>
          (if p.1 = 0 then "##" else "#") ++ pyRstrip p.2⟩]) :=
  alterDocstring_roundTrip ⟨true, true, 4⟩ (fun _ => CompOutcome.othErr)
    ["Hello world.", "second line here"] rfl (by decide) (by decide)

/-- C9 (amended) — when the very first line of a documentation block
matches a single-line tag pattern (author, copyright, date, file,
version, note, warning), or the arguments heading pattern, or a
raises/see-also heading pattern that does not also match the
item/description pattern, then with autobrief enabled the rewriter
reads the last element of the still-empty pending buffer and the whole
rewrite fails with an error instead of producing output. -/
theorem alterDocstring_headingFirst_fails (opts : Options) (tail : String)
    (comp : String → CompOutcome) (l : String) (rest : List String)
    (hab : opts.autobrief = true)
    (h : (∃ p ∈ slPatterns, (slMatchCore p.2.1 p.2.2 l).isSome) ∨
         argsStartMatch l = true ∨
         (raisesStartMatch l ≠ none ∧ argsREMatch l = none)) :
    alterDocstring opts tail comp (l :: rest) = none := by
  have hstep : altStep opts tail comp (l :: rest).length initAltSt 0 (some l) =
      none := by
    rcases h with hA | hB | ⟨hC, hCargs⟩
    · simp only [altStep, initAltSt, hab, if_true]
      norm_num
      rw [slLoop_err 0 slPatterns l
        ⟨[], false, false, false, "", 0, 0, ⟨false, none⟩, ⟨true, none⟩⟩ [] rfl hA]
    · obtain ⟨c, t, hr, hc⟩ := argsStart_shape hB
      have hcl : c.toLower = 'k' ∨ c.toLower = 'a' := by
        rcases hc with h' | ⟨h', _⟩
        · exact Or.inl h'
        · exact Or.inr h'
      have hsl : ∀ p ∈ slPatterns, slMatchCore p.2.1 p.2.2 l = none := by
        apply sl_none_of_head hr
        · rcases hc with hk | ⟨_, c1, t1, ht1, hor⟩
          · exact Or.inl (by rw [hk]; decide)
          · refine Or.inr fun c1' t1' ht1' he => ?_
            rw [ht1] at ht1'
            injection ht1' with e1 _
            subst e1
            rcases hor with h' | h' <;> rw [h'] at he <;> exact absurd he (by decide)
        all_goals rcases hcl with h' | h' <;> rw [h'] <;> decide
      have hret : returnsStartMatch l = false := by
        apply returnsStart_false_of_head hr
        · intro hrr
          rcases hcl with h' | h' <;> rw [h'] at hrr <;> exact absurd hrr (by decide)
        · rcases hcl with h' | h' <;> rw [h'] <;> decide
      simp only [altStep, initAltSt, hab, if_true]
      norm_num
      rw [slLoop_nomatch _ _ _ _ _ hsl]
      simp only [inSectionStep, Bool.false_eq_true, if_false, autobriefChain,
        hret, hB, if_true]
      rfl
    · obtain ⟨c, t, hr, hc⟩ := raisesStart_shape
        (Option.ne_none_iff_exists'.mp hC).choose_spec
      have hcl : c.toLower = 'r' ∨ c.toLower = 'e' ∨ c.toLower = 's' := by
        rcases hc with ⟨h', _⟩ | h' | h'
        · exact Or.inl h'
        · exact Or.inr (Or.inl h')
        · exact Or.inr (Or.inr h')
      have hsl : ∀ p ∈ slPatterns, slMatchCore p.2.1 p.2.2 l = none := by
        apply sl_none_of_head hr
        · refine Or.inl ?_
          rcases hcl with h' | h' | h' <;> rw [h'] <;> decide
        all_goals rcases hcl with h' | h' | h' <;> rw [h'] <;> decide
      have hret : returnsStartMatch l = false := by
        apply returnsStart_false_of_head hr
        · intro hrr c1 t1 ht1 he
          rcases hc with ⟨_, c1', t1', ht1', ha⟩ | h' | h'
          · rw [ht1] at ht1'
            injection ht1' with e1 _
            subst e1
            rw [ha] at he
            exact absurd he (by decide)
          · rw [h'] at hrr
            exact absurd hrr (by decide)
          · rw [h'] at hrr
            exact absurd hrr (by decide)
        · rcases hcl with h' | h' | h' <;> rw [h'] <;> decide
      have hargs : argsStartMatch l = false := by
        apply argsStart_false_of_head hr <;>
          rcases hcl with h' | h' | h' <;> rw [h'] <;> decide
      obtain ⟨b, hb⟩ := Option.ne_none_iff_exists'.mp hC
      simp only [altStep, initAltSt, hab, if_true]
      norm_num
      rw [slLoop_nomatch _ _ _ _ _ hsl]
      simp only [inSectionStep, Bool.false_eq_true, if_false, autobriefChain,
        hret, hargs, chainArgsRE, hCargs, chainRaises, hb, if_false]
      rfl
  rw [alterDocstring, docItems]
  have henum : (l :: rest).enum = (0, l) :: List.enumFrom 1 rest := by
    simp [List.enum]
  rw [henum]
  simp only [List.map_cons, List.cons_append]
  simp only [List.length_cons] at hstep
  simp [runAlter, hstep]

/-- C9 witness. -/
theorem alterDocstring_headingFirst_fails_witness :
    alterDocstring ⟨true, false, 4⟩ "" (fun _ => CompOutcome.othErr) ["Note: hi"] =
      none :=
  alterDocstring_headingFirst_fails ⟨true, false, 4⟩ "" (fun _ => CompOutcome.othErr)
    "Note: hi" [] rfl (Or.inl (by decide))

/-- C9 counterexample — the claim as stated is false for a Raises
heading carrying two trailing blanks: `"Raises:  "` matches the
raises-heading pattern, yet as the block's first line the rewrite
succeeds and produces output, because the item/description pattern
intercepts the line before the raises branch is reached. -/
theorem raisesHeading_trailing_blanks_succeeds :
    raisesStartMatch "Raises:  " = some false ∧
    (alterDocstring ⟨true, false, 4⟩ "" (fun _ => CompOutcome.othErr)
        ["Raises:  "]).map Prod.snd =
      some [⟨0, 0, ["## \tRaises"]⟩] := by
  constructor
  · rfl
  · rfl

/-! ## Sanity checks of the embedding on concrete inputs -/

example : pyRstrip "  ab \t " = "  ab" := by decide
example : pyStrip "  a b " = "a b" := by decide
example : pyReplace "Note: x" "Note: " " @note " = " @note x" := by decide
example : pyReplace "ab" "ab" "" = "" := by decide
example : pyExpandtabs "\ta" 4 = "    a" := by decide
example : pyGet ["a", "b"] (-1) = some "b" := by decide
example : pyGet ["a", "b"] 2 = none := by decide
example : pyContainsSub "keyword args:" "attr" = false := by decide

example : returnsStartMatch "  Returns:  " = true := by decide
example : returnsStartMatch "Returns" = false := by decide
example : argsStartMatch "Args:" = true := by decide
example : argsStartMatch "  Keyword Arguments: " = true := by decide
example : argsStartMatch "Attributes:" = true := by decide
example : argsStartMatch "Examples:" = false := by decide
example : argsREMatch "    x (int): the value" = some ("x", "the value") := by decide
example : argsREMatch "Raises:" = none := by decide
example : argsREMatch "Raises:  " = some ("Raises", " ") := by decide
example : argsREMatch "intro" = none := by decide
example : raisesStartMatch " See Also: " = some true := by decide
example : raisesStartMatch "Raises:" = some false := by decide
example : listMatch "a, b, and c" = true := by decide
example : listMatch "a, b and c" = false := by decide
example : listItemFindall (stripOutAnds "a, b, and c") = ["a", "b", "c"] := by decide
example : singleListItemMatch "  foo.bar " = true := by decide
example : examplesStartMatch "Examples:" = true := by decide
example : sectionStartMatch "  Side Effects: " = some "Side Effects" := by decide
example : sectionStartMatch "Examples:" = some "Examples" := by decide
example : sectionStartMatch "Brief." = none := by decide
example : errorLineMatch "ValueError: boom" = true := by decide
example : errorLineMatch "x = 1" = false := by decide
example : errorLineMatch "..." = true := by decide
example : interfaceMatch "class IFoo(Interface):" = some "IFoo" := by decide
example : interfaceMatch "class IFoo(zope.interface.Interface):" = some "IFoo" := by decide
example : interfaceMatch "class Foo(Base):" = none := by decide
example : indentOf 4 "\t  x" = 6 := by decide

example :
    checkSend (fun _ => .done) ⟨false, none⟩ "x = 1" ["##Brief.", "# @return"] 2 =
      some (⟨true, none⟩, ["##Brief.", "# @return\n# @code\n"]) := by decide
example :
    checkSend (fun _ => .synErr) ⟨true, none⟩ "prose words here." ["#a", "#b"] 2 =
      some (⟨false, none⟩, ["#a", "#b\n# @endcode\n"]) := by decide

example : markersOf ["# a\n# @code\n#  b", "# @endcode\n# c"] = [true, false] := by decide
example : codesClosed [true, false] = true := by decide
example : codesClosed [false, true] = false := by decide
example : noNestedFrom false [true, true, false] = false := by decide
